import Mathlib

/-!
Shallow embedding of the traffic-accident dashboard `accident_prone_area.py`
(data loading, normalization / metrics pipeline, filter engine and
aggregation layer), together with theorems settling the specification
claims about it.  Numeric columns are modelled exactly: accident counts
(`사고건수`, pandas int64) as `ℤ`, float-valued derived columns as `ℚ`.
-/

set_option maxHeartbeats 1000000

namespace AccidentApp

/-- A pandas cell value as seen by `clean_region`: either a Python `str`
or some non-string value (e.g. a float NaN), carried opaquely. -/
inductive PyVal where
  | str (s : String)
  | nonStr (tag : Nat)
  deriving DecidableEq

/-- Failure of the province extraction `x.split()[0]` (an `IndexError`
in the source when the cleaned region has no whitespace token; the spec
names this failure `MalformedRegion`). -/
inductive RegionError where
  | MalformedRegion
  deriving DecidableEq

/-- Python exceptions relevant to `load_data`. -/
inductive PyExc where
  | fileNotFoundError
  | unicodeDecodeError
  deriving DecidableEq

/-- One raw CSV row, restricted to the columns the pipeline reads:
`사고다발지역시도시군구` (region label), `사고유형구분` (accident-type
category), `사고건수` (accident count).  Latitude/longitude/location
name are only used for map display and are not modelled. -/
structure RawRecord where
  sigungu : String
  acType : String
  count : ℤ
  deriving DecidableEq

/-- A row of the derived table produced by `preprocess_and_analyze`. -/
structure DerivedRecord where
  sigungu : String
  acType : String
  count : ℤ
  region_clean : String
  sido : String
  proposed_strategy : String
  reduction_rate : ℚ
  predicted_reduction : ℚ
  predicted_remaining : ℚ
  deriving DecidableEq

/-- One row of the `groupby('region_clean')` aggregation feeding the
top-10 chart. -/
structure RegionGroup where
  region_clean : String
  count : ℤ
  predicted_reduction : ℚ
  predicted_remaining : ℚ
  deriving DecidableEq

/-! ### String helpers (Python `re.sub(r'\d+$', '', s)` and `str.split()`) -/

/-- Remove a trailing run of (ASCII) decimal digits from a character list. -/
def stripTrailingDigits (l : List Char) : List Char :=
  (l.reverse.dropWhile Char.isDigit).reverse

/-- Model of Python `re.sub(r'\d+$', '', s)`.  Without `re.MULTILINE`,
`$` matches at the very end of the string and also just before a newline
that ends the string, so a digit run immediately before a single final
newline is removed as well. -/
def reSubTrailingDigits (s : String) : String :=
  if s.data.getLast? = some '\n' then
    String.mk (stripTrailingDigits s.data.dropLast ++ ['\n'])
  else
    String.mk (stripTrailingDigits s.data)

/-- `clean_region` from the source: strip trailing digits from string
cells, pass non-string cells through unchanged. -/
def clean_region : PyVal → PyVal
  | .str s => .str (reSubTrailingDigits s)
  | .nonStr t => .nonStr t

/-- Accumulator-based word splitter implementing Python `str.split()`
with no arguments: split on runs of whitespace, discarding empty pieces.
`acc` holds the characters of the word in progress, reversed. -/
def wordsAux : List Char → List Char → List String
  | [], [] => []
  | [], a :: as => [String.mk (a :: as).reverse]
  | c :: cs, acc =>
    if c.isWhitespace then
      match acc with
      | [] => wordsAux cs []
      | a :: as => String.mk (a :: as).reverse :: wordsAux cs []
    else
      wordsAux cs (c :: acc)

/-- Python `s.split()` (no separator argument). -/
def pySplit (s : String) : List String :=
  wordsAux s.data []

/-- The province computation `x.split()[0]` applied to a cleaned region
label; indexing an empty split result is the `MalformedRegion` failure. -/
def sido_of (rc : String) : Except RegionError String :=
  match pySplit rc with
  | [] => .error .MalformedRegion
  | t :: _ => .ok t

/-! ### Strategy lookup and the per-row derivation -/

/-- `strategy_map.get(category, default)` together with the default entry
used by `apply_strategy`: exact-string lookup in the closed four-entry
table, falling back to (일반 안전 점검, 0.10). -/
def apply_strategy (acType : String) : String × ℚ :=
  if acType = "스쿨존어린이" then ("스쿨존 과속단속/시인성 강화", 3/10)
  else if acType = "보행어린이" then ("보행로 펜스 및 안전교육", 1/4)
  else if acType = "보행노인" then ("노인보호구역 및 횡단보도 개선", 1/5)
  else if acType = "자전거" then ("자전거 전용도로 및 교차로 개선", 1/4)
  else ("일반 안전 점검", 1/10)

/-- Derivation of one row of the enriched table: `region_clean`,
`시도` (province), strategy/rate columns and the reduction simulation
columns, exactly as computed in `preprocess_and_analyze`. -/
def derive_record (r : RawRecord) : Except RegionError DerivedRecord :=
  let rc := reSubTrailingDigits r.sigungu
  match pySplit rc with
  | [] => .error .MalformedRegion
  | sido :: _ =>
    let sr := apply_strategy r.acType
    .ok { sigungu := r.sigungu
          acType := r.acType
          count := r.count
          region_clean := rc
          sido := sido
          proposed_strategy := sr.1
          reduction_rate := sr.2
          predicted_reduction := (r.count : ℚ) * sr.2
          predicted_remaining := (r.count : ℚ) - (r.count : ℚ) * sr.2 }

/-- `preprocess_and_analyze`: derive every row; the first row whose
cleaned region yields no province token makes the whole derivation fail
(in the source this is an uncaught `IndexError`). -/
def preprocess_and_analyze : List RawRecord → Except RegionError (List DerivedRecord)
  | [] => .ok []
  | r :: rs =>
    match derive_record r, preprocess_and_analyze rs with
    | .ok d, .ok ds => .ok (d :: ds)
    | .error e, _ => .error e
    | .ok _, .error e => .error e

/-! ### Loader (`load_data` and the top-level handler) -/

/-- The state of the file system as seen by `pd.read_csv`: whether the
CSV file is present, and the parse result (some table, or a decode
failure) under each of the three attempted encodings. -/
structure FileSys where
  present : Bool
  cp949 : Option (List RawRecord)
  euckr : Option (List RawRecord)
  utf8 : Option (List RawRecord)
  deriving DecidableEq

/-- One `pd.read_csv(file_path, encoding=...)` call: `FileNotFoundError`
if the file is absent, otherwise the parse result under that encoding
(`UnicodeDecodeError` when decoding fails). -/
def read_csv (fs : FileSys) (parsed : Option (List RawRecord)) :
    Except PyExc (List RawRecord) :=
  if fs.present then
    match parsed with
    | some t => .ok t
    | none => .error .unicodeDecodeError
  else .error .fileNotFoundError

/-- `load_data`: try cp949; on any exception try euc-kr; on any exception
run the utf-8 attempt, whose exception (if any) propagates. -/
def load_data (fs : FileSys) : Except PyExc (List RawRecord) :=
  match read_csv fs fs.cp949 with
  | .ok t => .ok t
  | .error _ =>
    match read_csv fs fs.euckr with
    | .ok t => .ok t
    | .error _ => read_csv fs fs.utf8

/-- Outcome of the top-level load: the dashboard renders with a table,
or the blocking "data file not found" message is shown and rendering
stops (`st.error` + `st.stop`), or an exception escapes unhandled. -/
inductive AppOutcome where
  | rendered (t : List RawRecord)
  | dataUnavailableMsg
  | uncaught (e : PyExc)
  deriving DecidableEq

/-- The `try: raw_df = load_data() except FileNotFoundError: ...` block:
only `FileNotFoundError` is caught and turned into the blocking message;
any other exception escapes. -/
def run_load (fs : FileSys) : AppOutcome :=
  match load_data fs with
  | .ok t => .rendered t
  | .error .fileNotFoundError => .dataUnavailableMsg
  | .error e => .uncaught e

/-! ### Sorting (Python `sorted` and pandas `sort_values`) -/

/-- Python string comparison: lexicographic by Unicode code point. -/
def lexLe : List Char → List Char → Bool
  | [], _ => true
  | _ :: _, [] => false
  | a :: as, b :: bs =>
    if a.toNat < b.toNat then true
    else if b.toNat < a.toNat then false
    else lexLe as bs

/-- Python `a <= b` on strings. -/
def pyStrLe (a b : String) : Bool :=
  lexLe a.data b.data

/-- Insert `x` into `l` before the first element `y` with `le x y`
(keeping `x` after earlier equal elements is what makes the sort
stable). -/
def insertLe (le : α → α → Bool) (x : α) : List α → List α
  | [] => [x]
  | y :: ys => if le x y then x :: y :: ys else y :: insertLe le x ys

/-- Stable insertion sort with a boolean "less or equal" test; models
both Python `sorted` and the order produced by pandas
`sort_values(ascending=True)` (whose default algorithm is stable on the
small arrays arising here). -/
def isort (le : α → α → Bool) : List α → List α
  | [] => []
  | x :: xs => insertLe le x (isort le xs)

/-! ### Filter engine and sidebar options -/

/-- `pandas.Series.unique()`: distinct values in first-occurrence order.
`seen` accumulates the values already emitted. -/
def uniqueAux : List String → List String → List String
  | [], _ => []
  | x :: xs, seen =>
    if x ∈ seen then uniqueAux xs seen else x :: uniqueAux xs (x :: seen)

/-- `pandas.Series.unique()` over a list of strings. -/
def pdUnique (l : List String) : List String :=
  uniqueAux l []

/-- The province filter: rows whose `시도` equals the selection, with
"전체" ("all") as the sentinel keeping every row. -/
def filter_sido (tbl : List DerivedRecord) (sido : String) : List DerivedRecord :=
  if sido = "전체" then tbl else tbl.filter (fun r => decide (r.sido = sido))

/-- The sidebar type list `sorted(filtered_df['사고유형구분'].unique())`,
computed from the province-filtered table.  It is also the multiselect
default. -/
def type_list (tbl : List DerivedRecord) : List String :=
  isort pyStrLe (pdUnique (tbl.map (fun r => r.acType)))

/-- The full filter: province filter, then
`if selected_types: filtered_df = filtered_df[...isin(selected_types)]`.
An empty (falsy) type selection skips the `isin` filter entirely. -/
def filtered_df (tbl : List DerivedRecord) (sido : String)
    (types : List String) : List DerivedRecord :=
  let t := filter_sido tbl sido
  if types = [] then t else t.filter (fun r => decide (r.acType ∈ types))

/-! ### KPI aggregation and the top-10 region chart -/

/-- `filtered_df['사고건수'].sum()`. -/
def total_accidents (tbl : List DerivedRecord) : ℤ :=
  (tbl.map (fun r => r.count)).sum

/-- `filtered_df['predicted_reduction'].sum()`. -/
def total_reduction (tbl : List DerivedRecord) : ℚ :=
  (tbl.map (fun r => r.predicted_reduction)).sum

/-- `(total_reduction / total_accidents * 100) if total_accidents > 0 else 0`. -/
def reduction_pct (tbl : List DerivedRecord) : ℚ :=
  if 0 < total_accidents tbl then
    total_reduction tbl / (total_accidents tbl : ℚ) * 100
  else 0

/-- Ascending comparison by summed accident count, the key of
`sort_values('사고건수', ascending=True)`. -/
def countLe (a b : RegionGroup) : Bool :=
  decide (a.count ≤ b.count)

/-- `groupby('region_clean')[...].sum().reset_index()`: one row per
distinct cleaned region, keys sorted ascending (pandas groups are sorted
by key by default), each carrying the three column sums. -/
def group_regions (tbl : List DerivedRecord) : List RegionGroup :=
  (isort pyStrLe (pdUnique (tbl.map (fun r => r.region_clean)))).map
    (fun k =>
      let rows := tbl.filter (fun r => decide (r.region_clean = k))
      { region_clean := k
        count := (rows.map (fun r => r.count)).sum
        predicted_reduction := (rows.map (fun r => r.predicted_reduction)).sum
        predicted_remaining := (rows.map (fun r => r.predicted_remaining)).sum })

/-- `DataFrame.tail(n)`: the last `n` rows (all rows when fewer). -/
def pdTail (n : Nat) (l : List RegionGroup) : List RegionGroup :=
  l.drop (l.length - n)

/-- `top_regions`: group by cleaned region, sort ascending by summed
accident count, keep the tail of 10. -/
def top_regions (tbl : List DerivedRecord) : List RegionGroup :=
  pdTail 10 (isort countLe (group_regions tbl))

/-! ### Concrete tables used by the claim instances -/

/-- Extract the table from a successful derivation (dummy value on error). -/
def okTable (e : Except RegionError (List DerivedRecord)) : List DerivedRecord :=
  match e with
  | .ok d => d
  | .error _ => []

/-- The two-record input table of the end-to-end scenario. -/
def rawC9 : List RawRecord :=
  [{ sigungu := "A시 1", acType := "스쿨존어린이", count := 10 },
   { sigungu := "A시 2", acType := "자전거", count := 4 }]

/-- The derived row for ("A시 1", 스쿨존어린이, 10). -/
def dRecA : DerivedRecord :=
  { sigungu := "A시 1", acType := "스쿨존어린이", count := 10,
    region_clean := "A시 ", sido := "A시",
    proposed_strategy := "스쿨존 과속단속/시인성 강화", reduction_rate := 3/10,
    predicted_reduction := 3, predicted_remaining := 7 }

/-- The derived row for ("A시 2", 자전거, 4). -/
def dRecB : DerivedRecord :=
  { sigungu := "A시 2", acType := "자전거", count := 4,
    region_clean := "A시 ", sido := "A시",
    proposed_strategy := "자전거 전용도로 및 교차로 개선", reduction_rate := 1/4,
    predicted_reduction := 1, predicted_remaining := 3 }

/-- The derived table of the end-to-end scenario. -/
def dC9 : List DerivedRecord :=
  [dRecA, dRecB]

/-- A one-row input table. -/
def rawOne : List RawRecord :=
  [{ sigungu := "A시 1", acType := "자전거", count := 4 }]

/-- The derived table of `rawOne`. -/
def dOne : List DerivedRecord :=
  [{ sigungu := "A시 1", acType := "자전거", count := 4,
     region_clean := "A시 ", sido := "A시",
     proposed_strategy := "자전거 전용도로 및 교차로 개선", reduction_rate := 1/4,
     predicted_reduction := 1, predicted_remaining := 3 }]

/-- Two regions with equal accident counts, inserted in reverse
alphabetical order ("B구 1" first, then "A구 1"). -/
def rawTie : List RawRecord :=
  [{ sigungu := "B구 1", acType := "기타", count := 5 },
   { sigungu := "A구 1", acType := "기타", count := 5 }]

/-- The derived table of `rawTie`. -/
def dTie : List DerivedRecord :=
  okTable (preprocess_and_analyze rawTie)

/-- Twelve regions with pairwise-distinct accident counts. -/
def rawC12 : List RawRecord :=
  [{ sigungu := "RA", acType := "기타", count := 8 },
   { sigungu := "RB", acType := "기타", count := 3 },
   { sigungu := "RC", acType := "기타", count := 12 },
   { sigungu := "RD", acType := "기타", count := 5 },
   { sigungu := "RE", acType := "기타", count := 10 },
   { sigungu := "RF", acType := "기타", count := 1 },
   { sigungu := "RG", acType := "기타", count := 7 },
   { sigungu := "RH", acType := "기타", count := 4 },
   { sigungu := "RI", acType := "기타", count := 11 },
   { sigungu := "RJ", acType := "기타", count := 6 },
   { sigungu := "RK", acType := "기타", count := 9 },
   { sigungu := "RL", acType := "기타", count := 2 }]

/-- The derived table of `rawC12`. -/
def dC12 : List DerivedRecord :=
  okTable (preprocess_and_analyze rawC12)

/-- The count-sorted grouped rows of the twelve-region table. -/
def sortedGroupsC12 : List RegionGroup :=
  isort countLe (group_regions dC12)

/-- Placeholder group value for `headD`. -/
def defaultGroup : RegionGroup :=
  { region_clean := "", count := 0, predicted_reduction := 0, predicted_remaining := 0 }

/-- The lowest-count group of the twelve-region table (one of the two
rows cut off by `tail(10)`). -/
def gLow : RegionGroup :=
  sortedGroupsC12.headD defaultGroup

/-- The first row of the twelve-region top-10 result. -/
def gHigh : RegionGroup :=
  (top_regions dC12).headD defaultGroup

/-- File system with the CSV file absent. -/
def fsAbsent : FileSys :=
  { present := false, cp949 := none, euckr := none, utf8 := none }

/-- File system with the CSV file present but undecodable under all
three attempted encodings. -/
def fsUndecodable : FileSys :=
  { present := true, cp949 := none, euckr := none, utf8 := none }

/-! ### Helper lemmas about the sorting and uniqueness primitives -/

theorem mem_insertLe {α : Type} (le : α → α → Bool) (x a : α) :
    ∀ l : List α, a ∈ insertLe le x l ↔ a = x ∨ a ∈ l
  | [] => by simp [insertLe]
  | y :: ys => by
    by_cases h : le x y
    · simp [insertLe, h]
    · simp only [insertLe, if_neg h, List.mem_cons, mem_insertLe le x a ys]
      tauto

theorem mem_isort {α : Type} (le : α → α → Bool) (a : α) :
    ∀ l : List α, a ∈ isort le l ↔ a ∈ l
  | [] => by simp [isort]
  | x :: xs => by
    simp [isort, mem_insertLe, mem_isort le a xs]

theorem length_insertLe {α : Type} (le : α → α → Bool) (x : α) :
    ∀ l : List α, (insertLe le x l).length = l.length + 1
  | [] => by simp [insertLe]
  | y :: ys => by
    by_cases h : le x y
    · simp [insertLe, h]
    · simp [insertLe, h, length_insertLe le x ys]

theorem length_isort {α : Type} (le : α → α → Bool) :
    ∀ l : List α, (isort le l).length = l.length
  | [] => rfl
  | x :: xs => by
    simp [isort, length_insertLe, length_isort le xs]

theorem pairwise_insertLe {α : Type} (le : α → α → Bool)
    (htot : ∀ a b, le a b = true ∨ le b a = true)
    (htr : ∀ a b c, le a b = true → le b c = true → le a c = true) (x : α) :
    ∀ l : List α, l.Pairwise (fun a b => le a b = true) →
      (insertLe le x l).Pairwise (fun a b => le a b = true)
  | [], _ => by simp [insertLe]
  | y :: ys, hp => by
    rcases List.pairwise_cons.mp hp with ⟨hy, hys⟩
    by_cases h : le x y
    · simp only [insertLe, if_pos h]
      refine List.Pairwise.cons ?_ hp
      intro b hb
      rcases List.mem_cons.mp hb with rfl | hb
      · exact h
      · exact htr x y b h (hy b hb)
    · simp only [insertLe, if_neg h]
      refine List.Pairwise.cons ?_ (pairwise_insertLe le htot htr x ys hys)
      intro b hb
      rcases (mem_insertLe le x b ys).mp hb with rfl | hb
      · exact (htot b y).resolve_left h
      · exact hy b hb

theorem pairwise_isort {α : Type} (le : α → α → Bool)
    (htot : ∀ a b, le a b = true ∨ le b a = true)
    (htr : ∀ a b c, le a b = true → le b c = true → le a c = true) :
    ∀ l : List α, (isort le l).Pairwise (fun a b => le a b = true)
  | [] => by simp [isort]
  | x :: xs => pairwise_insertLe le htot htr x _ (pairwise_isort le htot htr xs)

theorem mem_uniqueAux (a : String) :
    ∀ (l seen : List String), a ∈ uniqueAux l seen ↔ a ∈ l ∧ a ∉ seen
  | [], seen => by simp [uniqueAux]
  | x :: xs, seen => by
    by_cases h : x ∈ seen
    · simp only [uniqueAux, if_pos h, mem_uniqueAux a xs seen, List.mem_cons]
      constructor
      · exact fun ⟨h1, h2⟩ => ⟨Or.inr h1, h2⟩
      · rintro ⟨rfl | h1, h2⟩
        · exact absurd h h2
        · exact ⟨h1, h2⟩
    · simp only [uniqueAux, if_neg h, List.mem_cons, mem_uniqueAux a xs (x :: seen)]
      by_cases hax : a = x
      · subst hax
        simp [h]
      · simp [hax]

theorem mem_pdUnique (a : String) (l : List String) : a ∈ pdUnique l ↔ a ∈ l := by
  simp [pdUnique, mem_uniqueAux a l []]

theorem mem_type_list {tbl : List DerivedRecord} {r : DerivedRecord} (h : r ∈ tbl) :
    r.acType ∈ type_list tbl := by
  rw [type_list, mem_isort, mem_pdUnique]
  exact List.mem_map.mpr ⟨r, h, rfl⟩

/-! ### Helper lemmas about the derivation pipeline -/

theorem apply_strategy_cases (c : String) :
    apply_strategy c = ("스쿨존 과속단속/시인성 강화", 3/10) ∨
    apply_strategy c = ("보행로 펜스 및 안전교육", 1/4) ∨
    apply_strategy c = ("노인보호구역 및 횡단보도 개선", 1/5) ∨
    apply_strategy c = ("자전거 전용도로 및 교차로 개선", 1/4) ∨
    apply_strategy c = ("일반 안전 점검", 1/10) := by
  unfold apply_strategy
  split_ifs <;> tauto

theorem apply_strategy_rate_bounds (c : String) :
    1/10 ≤ (apply_strategy c).2 ∧ (apply_strategy c).2 ≤ 3/10 := by
  rcases apply_strategy_cases c with h | h | h | h | h <;> rw [h] <;> norm_num

theorem derive_record_ok {r : RawRecord} {d : DerivedRecord}
    (h : derive_record r = .ok d) :
    d.sigungu = r.sigungu ∧ d.acType = r.acType ∧ d.count = r.count ∧
    d.region_clean = reSubTrailingDigits r.sigungu ∧
    sido_of d.region_clean = .ok d.sido ∧
    (d.proposed_strategy, d.reduction_rate) = apply_strategy r.acType ∧
    d.predicted_reduction = (r.count : ℚ) * d.reduction_rate ∧
    d.predicted_remaining = (r.count : ℚ) - d.predicted_reduction := by
  unfold derive_record at h
  simp only [] at h
  split at h
  · exact absurd h (by simp)
  · rename_i sido tail heq
    rw [Except.ok.injEq] at h
    subst h
    refine ⟨rfl, rfl, rfl, rfl, ?_, rfl, rfl, rfl⟩
    simp [sido_of, heq]

theorem preprocess_mem :
    ∀ {df : List RawRecord} {d : List DerivedRecord},
      preprocess_and_analyze df = .ok d → ∀ r ∈ d, ∃ x ∈ df, derive_record x = .ok r := by
  intro df
  induction df with
  | nil =>
    intro d h r hr
    simp only [preprocess_and_analyze, Except.ok.injEq] at h
    subst h
    simp at hr
  | cons x xs ih =>
    intro d h r hr
    simp only [preprocess_and_analyze] at h
    split at h
    · rename_i d0 ds hd hp
      rw [Except.ok.injEq] at h
      subst h
      rcases List.mem_cons.mp hr with rfl | hr
      · exact ⟨x, List.mem_cons_self x xs, hd⟩
      · rcases ih hp r hr with ⟨y, hy, hdy⟩
        exact ⟨y, List.mem_cons.mpr (Or.inr hy), hdy⟩
    · exact absurd h (by simp)
    · exact absurd h (by simp)

theorem mem_filter_sido {tbl : List DerivedRecord} {sido : String} {r : DerivedRecord}
    (h : r ∈ filter_sido tbl sido) : r ∈ tbl := by
  unfold filter_sido at h
  split_ifs at h
  · exact h
  · exact (List.mem_filter.mp h).1

theorem mem_filtered_df {tbl : List DerivedRecord} {sido : String} {types : List String}
    {r : DerivedRecord} (h : r ∈ filtered_df tbl sido types) : r ∈ tbl := by
  unfold filtered_df at h
  split_ifs at h
  · exact mem_filter_sido h
  · exact mem_filter_sido (List.mem_filter.mp h).1

/-! ### Helper lemmas about the string primitives -/

theorem stripTrailingDigits_of_getLast {l : List Char}
    (h : ∀ c, l.getLast? = some c → c.isDigit = false) :
    stripTrailingDigits l = l := by
  unfold stripTrailingDigits
  cases hrev : l.reverse with
  | nil =>
    have : l = [] := List.reverse_eq_nil_iff.mp hrev
    subst this
    simp
  | cons c rest =>
    have hc : l.getLast? = some c := by
      rw [List.getLast?_eq_head?_reverse, hrev]
      rfl
    rw [List.dropWhile_cons_of_neg (by simp [h c hc]), ← hrev, List.reverse_reverse]

theorem stripTrailingDigits_append {t d : List Char}
    (hall : ∀ c ∈ d, c.isDigit = true)
    (hlast : ∀ c, t.getLast? = some c → c.isDigit = false) :
    stripTrailingDigits (t ++ d) = t := by
  unfold stripTrailingDigits
  rw [List.reverse_append,
    List.dropWhile_append_of_pos (fun c hc => hall c (List.mem_reverse.mp hc))]
  exact stripTrailingDigits_of_getLast hlast

theorem wordsAux_dropWhile :
    ∀ l : List Char, wordsAux l [] = wordsAux (l.dropWhile Char.isWhitespace) []
  | [] => rfl
  | c :: cs => by
    by_cases h : c.isWhitespace
    · rw [List.dropWhile_cons_of_pos h, ← wordsAux_dropWhile cs]
      simp [wordsAux, h]
    · rw [List.dropWhile_cons_of_neg h]

theorem wordsAux_acc :
    ∀ (l acc : List Char), acc ≠ [] →
      wordsAux l acc =
        String.mk (acc.reverse ++ l.takeWhile (fun c => !c.isWhitespace)) ::
          wordsAux (l.dropWhile (fun c => !c.isWhitespace)) []
  | [], acc, h => by
    match acc, h with
    | a :: as, _ => simp [wordsAux]
  | c :: cs, acc, h => by
    by_cases hw : c.isWhitespace
    · have ht : (fun c => !c.isWhitespace) c = false := by simp [hw]
      rw [List.takeWhile_cons_of_neg (by simp [ht]),
        List.dropWhile_cons_of_neg (by simp [ht])]
      match acc, h with
      | a :: as, _ => simp [wordsAux, hw]
    · have htake : List.takeWhile (fun ch => !ch.isWhitespace) (c :: cs) =
          c :: List.takeWhile (fun ch => !ch.isWhitespace) cs := by
        rw [List.takeWhile_cons]
        simp [hw]
      have hdrop : List.dropWhile (fun ch => !ch.isWhitespace) (c :: cs) =
          List.dropWhile (fun ch => !ch.isWhitespace) cs := by
        rw [List.dropWhile_cons]
        simp [hw]
      rw [htake, hdrop]
      have hstep : wordsAux (c :: cs) acc = wordsAux cs (c :: acc) := by
        match acc, h with
        | a :: as, _ => simp [wordsAux, hw]
      rw [hstep, wordsAux_acc cs (c :: acc) (by simp)]
      simp

theorem pySplit_eq_nil {s : String}
    (h : s.data.dropWhile Char.isWhitespace = []) : pySplit s = [] := by
  rw [pySplit, wordsAux_dropWhile, h]
  rfl

theorem pySplit_head {s : String} {c : Char} {cs : List Char}
    (h : s.data.dropWhile Char.isWhitespace = c :: cs) :
    ∃ rest, pySplit s =
      String.mk ((s.data.dropWhile Char.isWhitespace).takeWhile (fun ch => !ch.isWhitespace)) ::
        rest := by
  have hc : c.isWhitespace = false := by
    have := List.head?_dropWhile_not Char.isWhitespace s.data
    rw [h] at this
    exact this
  rw [pySplit, wordsAux_dropWhile, h]
  have htake : List.takeWhile (fun ch => !ch.isWhitespace) (c :: cs) =
      c :: List.takeWhile (fun ch => !ch.isWhitespace) cs := by
    rw [List.takeWhile_cons]
    simp [hc]
  have h1 : wordsAux (c :: cs) [] = wordsAux cs [c] := by
    simp [wordsAux, hc]
  rw [h1, wordsAux_acc cs [c] (by simp), htake]
  refine ⟨wordsAux (List.dropWhile (fun ch => !ch.isWhitespace) cs) [], ?_⟩
  simp

/-- The end-to-end table derives to the explicit two-row derived table. -/
theorem preprocess_rawC9 : preprocess_and_analyze rawC9 = .ok dC9 := by
  simp +decide [rawC9, dC9, dRecA, dRecB, preprocess_and_analyze, derive_record,
    apply_strategy, reSubTrailingDigits, stripTrailingDigits, pySplit, wordsAux]
  norm_num

/-- The one-row table derives to the explicit one-row derived table. -/
theorem preprocess_rawOne : preprocess_and_analyze rawOne = .ok dOne := by
  simp +decide [rawOne, dOne, preprocess_and_analyze, derive_record,
    apply_strategy, reSubTrailingDigits, stripTrailingDigits, pySplit, wordsAux]
  norm_num

/-! ### Claim theorems -/

/-- Claim C1, counterexample: on a one-row derived table, filtering with
an empty accident-type selection returns the full table (one row, not
zero), both under the sentinel province "전체" and under the specific
province "A시"; the claimed "empty result regardless of province" is
false. -/
theorem c1_counterexample :
    preprocess_and_analyze rawOne = .ok dOne ∧
    filtered_df dOne "전체" [] = dOne ∧
    filtered_df dOne "A시" [] = dOne ∧
    dOne ≠ [] := by
  refine ⟨preprocess_rawOne, ?_, ?_, ?_⟩
  · simp +decide [filtered_df, filter_sido]
  · simp +decide [filtered_df, filter_sido, dOne]
  · simp [dOne]

/-- Claim C1, amended: an empty accident-type selection is falsy, so the
`isin` filter is skipped entirely — for every derived table and every
province selection (sentinel or specific), filtering with `types = {}`
returns exactly the province-filtered rows, the same result as selecting
every type in the sidebar's full type list. -/
theorem c1_empty_types_skips_type_filter (tbl : List DerivedRecord) (sido : String) :
    filtered_df tbl sido [] = filter_sido tbl sido ∧
    filtered_df tbl sido (type_list (filter_sido tbl sido)) = filter_sido tbl sido := by
  constructor
  · simp [filtered_df]
  · unfold filtered_df
    by_cases h : type_list (filter_sido tbl sido) = []
    · rw [if_pos h]
    · rw [if_neg h]
      exact List.filter_eq_self.mpr (fun r hr => by simp [mem_type_list hr])

/-- Claim C2: for every successfully derived table and every record in
it, `predicted_reduction + predicted_remaining` equals the record's
accident count exactly (over exact rational arithmetic, since
`predicted_remaining` is defined as the complement). -/
theorem c2_reduction_plus_remaining (df : List RawRecord) (d : List DerivedRecord)
    (h : preprocess_and_analyze df = .ok d) :
    ∀ r ∈ d, r.predicted_reduction + r.predicted_remaining = (r.count : ℚ) := by
  intro r hr
  rcases preprocess_mem h r hr with ⟨x, _, hd⟩
  rcases derive_record_ok hd with ⟨_, _, hcount, _, _, _, hpr, hprem⟩
  rw [hprem, hcount]
  ring

/-- Witness for C2 at the first record of the end-to-end table:
3 + 7 = 10. -/
theorem c2_witness :
    dRecA.predicted_reduction + dRecA.predicted_remaining = (dRecA.count : ℚ) :=
  c2_reduction_plus_remaining rawC9 dC9 preprocess_rawC9 dRecA (by simp [dC9])

/-- Claim C3: the strategy/rate assignment is an exact-string lookup
over the closed four-entry table with the general-safety fallback, and
`reduction_rate` always lies in the closed set {0.30, 0.25, 0.20, 0.10}. -/
theorem c3_strategy_lookup (df : List RawRecord) (d : List DerivedRecord)
    (h : preprocess_and_analyze df = .ok d) :
    ∀ r ∈ d,
      (r.acType = "스쿨존어린이" →
        r.proposed_strategy = "스쿨존 과속단속/시인성 강화" ∧ r.reduction_rate = 3/10) ∧
      (r.acType = "보행어린이" →
        r.proposed_strategy = "보행로 펜스 및 안전교육" ∧ r.reduction_rate = 1/4) ∧
      (r.acType = "보행노인" →
        r.proposed_strategy = "노인보호구역 및 횡단보도 개선" ∧ r.reduction_rate = 1/5) ∧
      (r.acType = "자전거" →
        r.proposed_strategy = "자전거 전용도로 및 교차로 개선" ∧ r.reduction_rate = 1/4) ∧
      (r.acType ∉ (["스쿨존어린이", "보행어린이", "보행노인", "자전거"] : List String) →
        r.proposed_strategy = "일반 안전 점검" ∧ r.reduction_rate = 1/10) ∧
      (r.reduction_rate = 3/10 ∨ r.reduction_rate = 1/4 ∨
        r.reduction_rate = 1/5 ∨ r.reduction_rate = 1/10) := by
  intro r hr
  rcases preprocess_mem h r hr with ⟨x, _, hd⟩
  rcases derive_record_ok hd with ⟨_, hac, _, _, _, hsr, _, _⟩
  rw [← hac] at hsr
  refine ⟨?_, ?_, ?_, ?_, ?_, ?_⟩
  · intro he
    rw [he] at hsr
    simp +decide [apply_strategy] at hsr
    exact hsr
  · intro he
    rw [he] at hsr
    simp +decide [apply_strategy] at hsr
    simpa using hsr
  · intro he
    rw [he] at hsr
    simp +decide [apply_strategy] at hsr
    simpa using hsr
  · intro he
    rw [he] at hsr
    simp +decide [apply_strategy] at hsr
    simpa using hsr
  · intro he
    simp only [List.mem_cons, List.mem_singleton, not_or] at he
    rw [apply_strategy, if_neg he.1, if_neg he.2.1, if_neg he.2.2.1,
      if_neg he.2.2.2.1] at hsr
    rw [Prod.mk.injEq] at hsr
    exact hsr
  · rcases apply_strategy_cases r.acType with hc | hc | hc | hc | hc <;>
      rw [hc, Prod.mk.injEq] at hsr <;> tauto

/-- Witness for C3 at the bicycle record of the end-to-end table. -/
theorem c3_witness :
    dRecB.proposed_strategy = "자전거 전용도로 및 교차로 개선" ∧ dRecB.reduction_rate = 1/4 :=
  (c3_strategy_lookup rawC9 dC9 preprocess_rawC9 dRecB (by simp [dC9])).2.2.2.1 rfl

/-- Claim C6: `reduction_pct` equals `total_reduction / total_accidents
* 100` when the accident total is positive and 0 when it is zero; the
division sits under an explicit guard, so no division by zero is ever
evaluated, including on the empty filtered table. -/
theorem c6_reduction_pct_guard (tbl : List DerivedRecord) :
    (0 < total_accidents tbl →
      reduction_pct tbl = total_reduction tbl / (total_accidents tbl : ℚ) * 100) ∧
    (total_accidents tbl = 0 → reduction_pct tbl = 0) := by
  constructor
  · intro h
    rw [reduction_pct, if_pos h]
  · intro h
    rw [reduction_pct, if_neg (by omega)]

/-- Witness for C6: the positive branch on the one-row table and the
zero branch on the empty table. -/
theorem c6_witness :
    reduction_pct dOne = total_reduction dOne / (total_accidents dOne : ℚ) * 100 ∧
    reduction_pct [] = 0 :=
  ⟨(c6_reduction_pct_guard dOne).1 (by decide), (c6_reduction_pct_guard []).2 rfl⟩

/-- Claim C7, counterexample: when the file is present but undecodable
under all three encodings, the outcome is an unhandled decode exception,
not the blocking DataUnavailable message the claim promises (only
`FileNotFoundError` is caught by the top-level handler). -/
theorem c7_counterexample :
    run_load fsUndecodable = .uncaught .unicodeDecodeError ∧
    AppOutcome.uncaught .unicodeDecodeError ≠ AppOutcome.dataUnavailableMsg := by
  exact ⟨rfl, by decide⟩

/-- Claim C7, amended: the loader tries exactly cp949, then euc-kr, then
utf-8, returning the first successful parse with no further retries; a
missing file surfaces as the blocking DataUnavailable message; but when
the file exists and all three decode attempts fail, the third attempt's
decode error propagates as an unhandled exception instead of the
DataUnavailable message (rendering still does not proceed). -/
theorem c7_loader_fallback (fs : FileSys) :
    (∀ t, fs.present = true → fs.cp949 = some t → load_data fs = .ok t) ∧
    (∀ t, fs.present = true → fs.cp949 = none → fs.euckr = some t →
      load_data fs = .ok t) ∧
    (∀ t, fs.present = true → fs.cp949 = none → fs.euckr = none →
      fs.utf8 = some t → load_data fs = .ok t) ∧
    (fs.present = false → run_load fs = .dataUnavailableMsg) ∧
    (fs.present = true → fs.cp949 = none → fs.euckr = none → fs.utf8 = none →
      run_load fs = .uncaught .unicodeDecodeError) := by
  refine ⟨?_, ?_, ?_, ?_, ?_⟩
  · intro t hp h1
    simp [load_data, read_csv, hp, h1]
  · intro t hp h1 h2
    simp [load_data, read_csv, hp, h1, h2]
  · intro t hp h1 h2 h3
    simp [load_data, read_csv, hp, h1, h2, h3]
  · intro hp
    simp [run_load, load_data, read_csv, hp]
  · intro hp h1 h2 h3
    simp [run_load, load_data, read_csv, hp, h1, h2, h3]

/-- Witness for C7: first-encoding success, the missing-file message,
and the undecodable-file fallthrough, each at a concrete file system. -/
theorem c7_witness :
    load_data { present := true, cp949 := some [], euckr := none, utf8 := none } = .ok [] ∧
    run_load fsAbsent = .dataUnavailableMsg ∧
    run_load fsUndecodable = .uncaught .unicodeDecodeError :=
  ⟨(c7_loader_fallback _).1 [] rfl rfl,
   (c7_loader_fallback fsAbsent).2.2.2.1 rfl,
   (c7_loader_fallback fsUndecodable).2.2.2.2 rfl rfl rfl rfl⟩

/-- Claim C9: the end-to-end scenario — two records ("A시 1",
스쿨존어린이, 10) and ("A시 2", 자전거, 4), no filtering (sentinel
province, default all-types selection) — yields totalAccidents = 14,
totalReduction = 10×0.30 + 4×0.25 = 4, and reductionPct = 200/7 ≈ 28.6
(its value in tenths of a percent rounds to 286). -/
theorem c9_end_to_end :
    preprocess_and_analyze rawC9 = .ok dC9 ∧
    total_accidents (filtered_df dC9 "전체" (type_list (filter_sido dC9 "전체"))) = 14 ∧
    total_reduction (filtered_df dC9 "전체" (type_list (filter_sido dC9 "전체"))) = 4 ∧
    reduction_pct (filtered_df dC9 "전체" (type_list (filter_sido dC9 "전체"))) = 200/7 ∧
    round (reduction_pct (filtered_df dC9 "전체" (type_list (filter_sido dC9 "전체"))) * 10)
      = 286 := by
  have hpct :
      reduction_pct (filtered_df dC9 "전체" (type_list (filter_sido dC9 "전체"))) = 200/7 := by
    simp +decide [dC9, dRecA, dRecB, reduction_pct, total_reduction, total_accidents,
      filtered_df, filter_sido, type_list, pdUnique, uniqueAux, isort, insertLe,
      pyStrLe, lexLe]
    norm_num
  refine ⟨preprocess_rawC9, ?_, ?_, hpct, ?_⟩
  · simp +decide [dC9, dRecA, dRecB, total_accidents, filtered_df, filter_sido,
      type_list, pdUnique, uniqueAux, isort, insertLe, pyStrLe, lexLe]
  · simp +decide [dC9, dRecA, dRecB, total_reduction, filtered_df, filter_sido,
      type_list, pdUnique, uniqueAux, isort, insertLe, pyStrLe, lexLe]
    norm_num
  · rw [hpct]
    norm_num [round_eq]

/-- Claim C4, counterexample: the Python regex anchor also strips a
digit run sitting just before a final newline, so the string "A시1\n" —
which has no trailing digits (it ends in a newline) and which the claim
therefore promises is left unchanged — is rewritten to "A시\n". -/
theorem c4_counterexample :
    clean_region (.str "A시1\n") = .str "A시\n" ∧ ("A시\n" : String) ≠ "A시1\n" := by
  exact ⟨by decide, by decide⟩

/-- Claim C4, amended: `clean_region` passes non-strings through
unchanged, leaves strings with no trailing digits and no trailing
newline unchanged, removes exactly one trailing run of decimal digits
when present, and additionally removes a digit run immediately preceding
a single final newline (Python `$` also matches there); the two spec
examples hold. -/
theorem c4_clean_region :
    (∀ t : Nat, clean_region (.nonStr t) = .nonStr t) ∧
    (∀ s : String, s.data.getLast? ≠ some '\n' →
      (∀ c, s.data.getLast? = some c → c.isDigit = false) →
      reSubTrailingDigits s = s) ∧
    (∀ t d : String, d.data ≠ [] → (∀ c ∈ d.data, c.isDigit = true) →
      (∀ c, t.data.getLast? = some c → c.isDigit = false) →
      reSubTrailingDigits (t ++ d) = t) ∧
    reSubTrailingDigits "서울특별시 강남구1" = "서울특별시 강남구" ∧
    reSubTrailingDigits "부산 해운대구" = "부산 해운대구" := by
  refine ⟨fun t => rfl, ?_, ?_, by decide, by decide⟩
  · intro s h1 h2
    rw [reSubTrailingDigits, if_neg h1, stripTrailingDigits_of_getLast h2]
  · intro t d hd hall hlast
    have hlastd : (t ++ d).data.getLast? = d.data.getLast? := by
      rw [String.data_append, List.getLast?_append]
      cases hg : d.data.getLast? with
      | none => exact absurd (List.getLast?_eq_none_iff.mp hg) hd
      | some c => rfl
    have hnotnl : (t ++ d).data.getLast? ≠ some '\n' := by
      rw [hlastd]
      cases hg : d.data.getLast? with
      | none => simp
      | some c =>
        have hc := hall c (List.mem_of_getLast?_eq_some hg)
        intro hcontra
        rw [Option.some.injEq] at hcontra
        subst hcontra
        simp at hc
    rw [reSubTrailingDigits, if_neg hnotnl]
    have : (t ++ d).data = t.data ++ d.data := String.data_append t d
    rw [this, stripTrailingDigits_append hall hlast]

/-- Witness for C4 at the digit-stripping case: "동구" ++ "27" cleans to
"동구". -/
theorem c4_witness : reSubTrailingDigits ("동구" ++ "27") = "동구" :=
  c4_clean_region.2.2.1 "동구" "27" (by decide) (by decide) (by decide)

/-- Claim C5: on a cleaned region label with at least one
non-whitespace character, the province computation returns the first
whitespace-delimited token; on an empty or all-whitespace label the
indexing fails (the spec's MalformedRegion error; an `IndexError` in
the source). -/
theorem c5_province_first_token :
    (∀ s : String, s.data.dropWhile Char.isWhitespace ≠ [] →
      sido_of s = .ok (String.mk
        ((s.data.dropWhile Char.isWhitespace).takeWhile (fun ch => !ch.isWhitespace)))) ∧
    (∀ s : String, s.data.dropWhile Char.isWhitespace = [] →
      sido_of s = .error .MalformedRegion) ∧
    sido_of "서울특별시 강남구" = .ok "서울특별시" ∧
    sido_of "" = .error .MalformedRegion := by
  refine ⟨?_, ?_, rfl, rfl⟩
  · intro s h
    cases hdw : s.data.dropWhile Char.isWhitespace with
    | nil => exact absurd hdw h
    | cons c cs =>
      rcases pySplit_head hdw with ⟨rest, hps⟩
      simp only [sido_of, hps]
      rw [hdw]
  · intro s h
    simp [sido_of, pySplit_eq_nil h]

/-- Witness for C5: the province of "A시 " is "A시". -/
theorem c5_witness : sido_of "A시 " = .ok "A시" := by
  have h := c5_province_first_token.1 "A시 " (by decide)
  rw [h]
  simp only [Except.ok.injEq]
  decide

/-! ### Claim C8 machinery -/

theorem countLe_total (a b : RegionGroup) : countLe a b = true ∨ countLe b a = true := by
  unfold countLe
  rcases Int.le_total a.count b.count with h | h
  · exact Or.inl (decide_eq_true h)
  · exact Or.inr (decide_eq_true h)

theorem countLe_trans (a b c : RegionGroup)
    (h1 : countLe a b = true) (h2 : countLe b c = true) : countLe a c = true := by
  simp only [countLe, decide_eq_true_eq] at *
  omega

theorem headD_mem {α : Type} (l : List α) (d : α) (h : l ≠ []) : l.headD d ∈ l := by
  cases l with
  | nil => exact absurd rfl h
  | cons x xs => simp

theorem headD_mem_take {α : Type} (l : List α) (d : α) (k : Nat)
    (h : l ≠ []) (hk : 0 < k) : l.headD d ∈ l.take k := by
  cases l with
  | nil => exact absurd rfl h
  | cons x xs =>
    cases k with
    | zero => omega
    | succ n => simp

/-- Claim C8, counterexample: with rows inserted as ("B구 1", 5) then
("A구 1", 5) — equal counts, insertion order B before A — the claim's
"ties broken by original row order" predicts the grouped result
[B구, A구]; the code groups by cleaned region with keys sorted
ascending before the count sort, so the actual result is [A구, B구]. -/
theorem c8_counterexample :
    preprocess_and_analyze rawTie = .ok dTie ∧
    (top_regions dTie).map (fun g => (g.region_clean, g.count)) =
      [("A구 ", 5), ("B구 ", 5)] ∧
    ([("A구 ", (5 : ℤ)), ("B구 ", (5 : ℤ))] : List (String × ℤ)) ≠
      [("B구 ", 5), ("A구 ", 5)] := by
  exact ⟨rfl, by decide, by decide⟩

/-- Claim C8, amended: the top-10 aggregation sorts the grouped rows
ascending by summed accident count (stably) and keeps the tail of 10,
so its output is ascending in accident count and every discarded group
has a count no larger than every kept group; ties among equal counts
follow the grouped table's region-name ascending order (the group-by
sorts its keys) rather than source-row order; for the concrete
twelve-region table with pairwise-distinct counts the result is exactly
the 10 highest-count regions, ordered ascending. -/
theorem c8_top_regions :
    (∀ tbl : List DerivedRecord,
      (top_regions tbl).Pairwise (fun a b : RegionGroup => a.count ≤ b.count)) ∧
    (∀ tbl : List DerivedRecord,
      ∀ x ∈ (isort countLe (group_regions tbl)).take
        ((isort countLe (group_regions tbl)).length - 10),
      ∀ y ∈ top_regions tbl, x.count ≤ y.count) ∧
    (preprocess_and_analyze rawC12 = .ok dC12 ∧
      (top_regions dC12).map (fun g => (g.region_clean, g.count)) =
        [("RB", 3), ("RH", 4), ("RD", 5), ("RJ", 6), ("RG", 7),
         ("RA", 8), ("RK", 9), ("RE", 10), ("RI", 11), ("RC", 12)]) := by
  have hsorted : ∀ tbl : List DerivedRecord,
      (isort countLe (group_regions tbl)).Pairwise (fun a b => countLe a b = true) :=
    fun tbl => pairwise_isort countLe countLe_total countLe_trans (group_regions tbl)
  refine ⟨?_, ?_, rfl, by decide⟩
  · intro tbl
    have hdrop : (top_regions tbl).Pairwise (fun a b => countLe a b = true) :=
      List.Pairwise.sublist (List.drop_sublist _ _) (hsorted tbl)
    exact hdrop.imp (fun h => by simpa [countLe] using h)
  · intro tbl x hx y hy
    have hsplit : ((isort countLe (group_regions tbl)).take
          ((isort countLe (group_regions tbl)).length - 10) ++
        (isort countLe (group_regions tbl)).drop
          ((isort countLe (group_regions tbl)).length - 10)).Pairwise
        (fun a b => countLe a b = true) := by
      rw [List.take_append_drop]
      exact hsorted tbl
    have h := (List.pairwise_append.mp hsplit).2.2 x hx y hy
    simpa [countLe] using h

/-- Witness for C8: applying the tail-dominance part at the concrete
twelve-region table, the lowest discarded group's count is at most the
first kept group's count. -/
theorem c8_witness : gLow.count ≤ gHigh.count := by
  have hlen : sortedGroupsC12.length = 12 := by decide
  have hne : sortedGroupsC12 ≠ [] := by
    intro hcontra
    rw [hcontra] at hlen
    simp at hlen
  have htop : top_regions dC12 ≠ [] := by decide
  refine c8_top_regions.2.1 dC12 gLow ?_ gHigh (headD_mem _ _ htop)
  have : (isort countLe (group_regions dC12)).length - 10 = 2 := by decide
  rw [this]
  exact headD_mem_take sortedGroupsC12 _ 2 hne (by omega)

/-- Per-record consequences of the derivation used by claim C10. -/
theorem derived_record_rate_shape {df : List RawRecord} {d : List DerivedRecord}
    (h : preprocess_and_analyze df = .ok d) :
    ∀ r ∈ d, r.predicted_reduction = (r.count : ℚ) * r.reduction_rate ∧
      r.predicted_remaining = (r.count : ℚ) - r.predicted_reduction ∧
      1/10 ≤ r.reduction_rate ∧ r.reduction_rate ≤ 3/10 := by
  intro r hr
  rcases preprocess_mem h r hr with ⟨x, _, hd⟩
  rcases derive_record_ok hd with ⟨_, hac, hcount, _, _, hsr, hpr, hprem⟩
  have hrate : r.reduction_rate = (apply_strategy x.acType).2 := by
    rw [← hsr]
  constructor
  · rw [hpr, hcount, hrate]
  · constructor
    · rw [hprem, hcount]
    · rw [hrate]
      exact apply_strategy_rate_bounds x.acType

/-- Claim C10: for derived tables whose accident counts are all
non-negative, each record satisfies 0 ≤ predicted_reduction ≤ count and
predicted_remaining ≥ 0, and for every filter selection the resulting
reduction percentage lies in [0, 30] (hence in [0, 100]). -/
theorem c10_bounds (df : List RawRecord) (d : List DerivedRecord)
    (h : preprocess_and_analyze df = .ok d) (hpos : ∀ r ∈ d, 0 ≤ r.count) :
    (∀ r ∈ d, 0 ≤ r.predicted_reduction ∧ r.predicted_reduction ≤ (r.count : ℚ) ∧
      0 ≤ r.predicted_remaining) ∧
    (∀ sido types, 0 ≤ reduction_pct (filtered_df d sido types) ∧
      reduction_pct (filtered_df d sido types) ≤ 30 ∧
      reduction_pct (filtered_df d sido types) ≤ 100) := by
  have hbound : ∀ r ∈ d, 0 ≤ r.predicted_reduction ∧
      r.predicted_reduction ≤ (r.count : ℚ) ∧ 0 ≤ r.predicted_remaining := by
    intro r hr
    rcases derived_record_rate_shape h r hr with ⟨hpr, hprem, hr1, hr2⟩
    have hc : (0 : ℚ) ≤ (r.count : ℚ) := by exact_mod_cast hpos r hr
    have h0 : 0 ≤ r.predicted_reduction := by
      rw [hpr]
      exact mul_nonneg hc (le_trans (by norm_num) hr1)
    have h1 : r.predicted_reduction ≤ (r.count : ℚ) := by
      rw [hpr]
      exact mul_le_of_le_one_right hc (le_trans hr2 (by norm_num))
    refine ⟨h0, h1, ?_⟩
    rw [hprem]
    linarith
  refine ⟨hbound, ?_⟩
  intro sido types
  set f := filtered_df d sido types with hf
  have hsub : ∀ r ∈ f, r ∈ d := fun r hr => mem_filtered_df hr
  have htau : (0 : ℤ) ≤ total_accidents f := by
    refine List.sum_nonneg ?_
    intro a ha
    rcases List.mem_map.mp ha with ⟨r, hr, rfl⟩
    exact hpos r (hsub r hr)
  have hRnonneg : (0 : ℚ) ≤ total_reduction f := by
    refine List.sum_nonneg ?_
    intro a ha
    rcases List.mem_map.mp ha with ⟨r, hr, rfl⟩
    exact (hbound r (hsub r hr)).1
  by_cases hpos' : 0 < total_accidents f
  · have htauQ : (0 : ℚ) < (total_accidents f : ℚ) := by exact_mod_cast hpos'
    have hRle : total_reduction f ≤ 3/10 * (total_accidents f : ℚ) := by
      have hstep : total_reduction f ≤
          (f.map (fun r => 3/10 * (r.count : ℚ))).sum := by
        refine List.sum_le_sum ?_
        intro r hr
        rcases derived_record_rate_shape h r (hsub r hr) with ⟨hpr, _, _, hr2⟩
        have hc : (0 : ℚ) ≤ (r.count : ℚ) := by exact_mod_cast hpos r (hsub r hr)
        rw [hpr, mul_comm]
        exact mul_le_mul_of_nonneg_right hr2 hc
      have hcast : ((total_accidents f : ℤ) : ℚ) =
          (f.map (fun r => (r.count : ℚ))).sum := by
        rw [total_accidents, Int.cast_list_sum, List.map_map]
        rfl
      rw [hcast, ← List.sum_map_mul_left]
      exact hstep
    have hpct : reduction_pct f = total_reduction f / (total_accidents f : ℚ) * 100 := by
      rw [reduction_pct, if_pos hpos']
    have hdiv : total_reduction f / (total_accidents f : ℚ) ≤ 3/10 :=
      (div_le_iff₀ htauQ).mpr (by linarith)
    have hdiv0 : 0 ≤ total_reduction f / (total_accidents f : ℚ) :=
      div_nonneg hRnonneg (le_of_lt htauQ)
    refine ⟨by rw [hpct]; positivity, ?_, ?_⟩
    · rw [hpct]
      nlinarith
    · rw [hpct]
      nlinarith
  · have hpct : reduction_pct f = 0 := by
      rw [reduction_pct, if_neg hpos']
    rw [hpct]
    norm_num

/-- Witness for C10 at the end-to-end table: the first record's bounds
and the percentage bounds with the sentinel province and empty type
selection. -/
theorem c10_witness :
    (0 ≤ dRecA.predicted_reduction ∧ dRecA.predicted_reduction ≤ (dRecA.count : ℚ) ∧
      0 ≤ dRecA.predicted_remaining) ∧
    (0 ≤ reduction_pct (filtered_df dC9 "전체" []) ∧
      reduction_pct (filtered_df dC9 "전체" []) ≤ 30 ∧
      reduction_pct (filtered_df dC9 "전체" []) ≤ 100) :=
  ⟨(c10_bounds rawC9 dC9 preprocess_rawC9 (by decide)).1 dRecA (by simp [dC9]),
   (c10_bounds rawC9 dC9 preprocess_rawC9 (by decide)).2 "전체" []⟩

end AccidentApp
